import Mathlib

/-!
Shallow embedding of `collab-backend-token-auth` (`src/index.js`).

The repository is an Express middleware package that validates OAuth 2.0
bearer tokens against a remote authorization server and caches introspection
results.  JavaScript values are modelled as follows: JS strings are Lean
`String`s (JS `.length`, which counts UTF-16 code units, is modelled by
`String.length`; the two agree on all strings of basic-plane characters,
which covers every input considered below), absent object keys and `null`
are modelled with `Option`, machine time `Date.now()` is an explicit `Nat`
parameter in milliseconds, and the external `fetch` call of `_validateToken`
is modelled by an explicit `RemoteOutcome` parameter (its `.catch` handler
always produces a status-401 error, which is what the model records).
-/

namespace TokenAuth

/-- UTF-8 encoding of a single code point, as plain naturals
(`Buffer.write(str, 'utf8')` semantics for valid code points). -/
def utf8Bytes (n : Nat) : List Nat :=
  if n < 0x80 then [n]
  else if n < 0x800 then [0xC0 + n / 64, 0x80 + n % 64]
  else if n < 0x10000 then [0xE0 + n / 4096, 0x80 + (n / 64) % 64, 0x80 + n % 64]
  else [0xF0 + n / 262144, 0x80 + (n / 4096) % 64, 0x80 + (n / 64) % 64, 0x80 + n % 64]

/-- The UTF-8 bytes of a string (`Buffer.byteLength(s, 'utf8')` counts their
number; `Buffer.write` stores them). -/
def strBytes (s : String) : List Nat :=
  s.data.flatMap (fun c => utf8Bytes c.toNat)

/-- Split a character list at every occurrence of the separator, keeping
empty pieces, with `acc` the (reversed) piece read so far.  This is the
semantics of JS `String.prototype.split` with a single-character separator. -/
def splitCharsAux (sep : Char) : List Char → List Char → List (List Char)
  | [], acc => [acc.reverse]
  | c :: cs, acc =>
      if c = sep then acc.reverse :: splitCharsAux sep cs []
      else splitCharsAux sep cs (c :: acc)

/-- JS `s.split(sep)` for a single-character separator (the source only
splits on `' '`, `'.'` and `'\n'`). -/
def jsSplit (sep : Char) (s : String) : List String :=
  (splitCharsAux sep s.data []).map (fun l => ⟨l⟩)

/-- JS `s.length` (UTF-16 code units, equal to the code-point count for
basic-plane strings, which is what `String.data.length` gives). -/
def jsLength (s : String) : Nat :=
  s.data.length

/-- ASCII lower-casing of one character, as done by JS `toLowerCase` on the
ASCII range (the source only compares against the ASCII word `'bearer'`). -/
def asciiLower (c : Char) : Char :=
  if 65 ≤ c.toNat ∧ c.toNat ≤ 90 then Char.ofNat (c.toNat + 32) else c

/-- JS `s.toLowerCase()` restricted to ASCII case mapping. -/
def jsToLowerCase (s : String) : String :=
  ⟨s.data.map asciiLower⟩

/-- `safeCompare(token1, token2)` from `src/index.js`: both strings are
written into zero-initialized buffers of the larger byte length and the
buffers are compared with `crypto.timingSafeEqual`.  The model keeps the
zero padding, so the result is equality of the zero-padded byte lists. -/
def safeCompare (token1 token2 : String) : Bool :=
  let b1 := strBytes token1
  let b2 := strBytes token2
  let bufferLength := max b1.length b2.length
  (b1 ++ List.replicate (bufferLength - b1.length) 0) ==
    (b2 ++ List.replicate (bufferLength - b2.length) 0)

/-- Value of the `scope` field of an introspection result as received from
the authorization server: a string, an array of strings, or JSON `null`
(an absent field is `Option.none` at the use site). -/
inductive IScope where
  | istr (s : String)
  | iarr (l : List String)
  | inull
deriving DecidableEq, Repr

/-- JS truthiness of a present `scope` field: `''` and `null` are falsy,
every array (also the empty array) is truthy. -/
def IScope.truthy : IScope → Bool
  | .istr s => s ≠ ""
  | .iarr _ => true
  | .inull => false

/-- `req.locals.tokenScope` as stored by `_addTokenScopeToReqObject`:
either a scope string or an array of scope strings. -/
inductive TokenScope where
  | str (s : String)
  | arr (l : List String)
deriving DecidableEq, Repr

/-- `chain.introspect.scope || []` — the value stored into
`req.locals.tokenScope` when the `scope` key is present. -/
def IScope.orEmpty : IScope → TokenScope
  | .istr s => if s = "" then .arr [] else .str s
  | .iarr l => .arr l
  | .inull => .arr []

/-- Introspection result (token meta-data returned by the authorization
server).  `active`, `exp`, `scope` and `user` model possibly-absent JSON
keys; `client` records only presence of the `client` key, which is all
`_checkTokenActive` inspects. -/
structure Introspect where
  active : Option Bool
  exp : Option Nat
  scope : Option IScope
  client : Bool
  user : Option (Option Int × Option String)
deriving DecidableEq, Repr

/-- One entry of the module-level `tokenCache` array. -/
structure CacheEntry where
  token : String
  introspect : Introspect
  cacheExpires : Nat
deriving DecidableEq, Repr

/-- JS truthiness of `storedToken.introspect.active` (an absent key is
`undefined`, hence falsy). -/
def jsActiveTruthy : Option Bool → Bool
  | some b => b
  | none => false

/-- JS `storedToken.introspect.exp > n` (comparison with `undefined` is
false). -/
def jsExpGt (exp : Option Nat) (n : Nat) : Bool :=
  match exp with
  | some e => decide (e > n)
  | none => false

/-- Module configuration variables of `src/index.js` (the `let` bindings
`authURL`, `clientId`, `clientSecret`, `tokenCacheSeconds`).  Before
`authInit` runs, the first three are `null` and `tokenCacheSeconds = 60`. -/
structure Config where
  authURL : Option String
  clientId : Option String
  clientSecret : Option String
  tokenCacheSeconds : Nat
deriving DecidableEq, Repr

/-- The module state before `authInit` has ever run. -/
def defaultConfig : Config :=
  { authURL := none, clientId := none, clientSecret := none, tokenCacheSeconds := 60 }

/-- The `scope` value inside the argument of `requireAccessToken(options)`:
a string, an array of strings, or some other JS value. -/
inductive ScopeArg where
  | strv (s : String)
  | arrv (l : List String)
  | otherv
deriving DecidableEq, Repr

/-- `requireAccessToken(options)` argument: `scope := none` models an
options object without a `scope` key. -/
structure JsOptions where
  scope : Option ScopeArg
deriving DecidableEq, Repr

/-- Error object rejected down the promise chain: a message and the
optional `err.status` property. -/
structure Err where
  message : String
  status : Option Nat
deriving DecidableEq, Repr

/-- Scope normalization performed by `_initChainObject` when the options
object has a `scope` key: a non-empty string becomes a one-element array, a
non-empty array keeps its non-empty string elements, anything else leaves
the freshly created `opt.scope` array empty. -/
def normalizeScopeArg : ScopeArg → List String
  | .strv s => if jsLength s > 0 then [s] else []
  | .arrv l => if l.length > 0 then l.filter (fun s => jsLength s > 0) else []
  | .otherv => []

/-- The chain object passed down the promise chain (created by
`_initChainObject`).  `optionsScope := none` models `opt` without a `scope`
key; `introspectWasCached` models presence of the `introspectWasCached`
key, which is only ever created with value `true`. -/
structure Chain where
  optionsScope : Option (List String)
  accessToken : Option String
  introspect : Option Introspect
  introspectWasCached : Bool
deriving DecidableEq, Repr

/-- `_initChainObject(options)`: reject with the configuration error if any
of the three credentials is unset, otherwise parse the options and resolve
with a fresh chain object. -/
def initChainObject (cfg : Config) (options : Option JsOptions) : Except Err Chain :=
  if cfg.authURL.isNone || cfg.clientId.isNone || cfg.clientSecret.isNone then
    .error { message := "Module configuration not found. Did you forget in run authInit() ?",
             status := none }
  else
    .ok { optionsScope :=
            match options with
            | none => none
            | some o =>
              match o.scope with
              | none => none
              | some a => some (normalizeScopeArg a)
          accessToken := none
          introspect := none
          introspectWasCached := false }

/-- Value of `req.headers.authorization`: a string or a present key of some
other type (`typeof !== 'string'`). -/
inductive HeaderVal where
  | strV (s : String)
  | nonString
deriving DecidableEq, Repr

/-- `req.headers` object; `authorization := none` models an absent
`authorization` key. -/
structure Headers where
  authorization : Option HeaderVal
deriving DecidableEq, Repr

/-- `req.locals.user` object built by `_addUserIdToReqObject`. -/
structure LocalUser where
  number : Option Int
  id : Option String
deriving DecidableEq, Repr

/-- `req.locals` object; each field models presence of the key. -/
structure Locals where
  tokenScope : Option TokenScope
  user : Option LocalUser
  userid : Option Int
deriving DecidableEq, Repr

/-- An empty `req.locals` (`Object.create(null)`). -/
def Locals.empty : Locals :=
  { tokenScope := none, user := none, userid := none }

/-- The Express request object, restricted to the fields the middleware
reads or writes: `headers := none` models a request object without a
(truthy) `headers` property. -/
structure Req where
  headers : Option Headers
  locals : Option Locals
deriving DecidableEq, Repr

/-- `_extractTokenFromHeader(req, chain)`: validate the `Authorization`
header and store the bearer token into the chain object. -/
def extractTokenFromHeader (req : Req) (chain : Chain) : Except Err Chain :=
  match req.headers with
  | some h =>
    match h.authorization with
    | some (.strV s) =>
      if jsLength s < 4096 then
        if (jsSplit ' ' s).length = 2 &&
            jsToLowerCase ((jsSplit ' ' s).getD 0 "") == "bearer" &&
            jsLength ((jsSplit ' ' s).getD 1 "") > 0 &&
            (jsSplit '.' ((jsSplit ' ' s).getD 1 "")).length = 3 then
          .ok { chain with accessToken := some ((jsSplit ' ' s).getD 1 "") }
        else
          .error { message := "Expected Bearer token", status := some 401 }
      else
        .error { message := "Authorization header exceeds maximum length", status := some 401 }
    | _ => .error { message := "No authorization header", status := some 401 }
  | none => .error { message := "Headers not found in req object", status := some 500 }

/-- The predicate of the `tokenCache.find` callback in `_findCachedToken`:
token equality via `safeCompare`, `active` truthy, the token expiry in the
future (seconds) and the cache-entry expiry in the future (milliseconds). -/
def cacheHit (e : CacheEntry) (accessToken : String) (now : Nat) : Bool :=
  safeCompare e.token accessToken &&
    jsActiveTruthy e.introspect.active &&
    jsExpGt e.introspect.exp (now / 1000) &&
    decide (e.cacheExpires > now)

/-- The cache lookup of `_findCachedToken` (`now` in milliseconds,
`Math.floor(Date.now() / 1000)` is `now / 1000`): with caching disabled
(`tokenCacheSeconds = 0`) nothing is looked up. -/
def findCachedToken (ttl now : Nat) (cache : List CacheEntry) (accessToken : String) :
    Option CacheEntry :=
  if ttl > 0 then cache.find? (fun e => cacheHit e accessToken now) else none

/-- `_findCachedToken(chain)` as a chain transformer: on a hit, store the
cached introspection result and mark the chain as cache-served. -/
def findCachedTokenStep (ttl now : Nat) (cache : List CacheEntry) (chain : Chain) : Chain :=
  match chain.accessToken with
  | some tok =>
    match findCachedToken ttl now cache tok with
    | some found => { chain with introspect := some found.introspect, introspectWasCached := true }
    | none => { chain with introspect := none }
  | none => { chain with introspect := none }

/-- Outcome of the external `fetch` to `<authURL>/oauth/introspect` inside
`_validateToken`: a parsed 200-JSON introspection body, or any failure
(non-200 status, network error, timeout), whose diagnostic message the
`.catch` handler builds. -/
inductive RemoteOutcome where
  | jsonOk (i : Introspect)
  | fail (msg : String)
deriving DecidableEq, Repr

/-- `_validateToken(chain)`: trust an active cached result implicitly,
otherwise perform the remote introspection call.  The second component
records whether the remote call was made; every remote failure is rejected
with `err.status = 401` by the `.catch` handler. -/
def validateToken (chain : Chain) (remote : RemoteOutcome) : Except Err Chain × Bool :=
  match chain.accessToken, chain.introspect with
  | some tok, some i =>
    if jsLength tok > 0 && chain.introspectWasCached && (i.active == some true) then
      (.ok chain, false)
    else
      match remote with
      | .jsonOk j => (.ok { chain with introspect := some j }, true)
      | .fail msg => (.error { message := msg, status := some 401 }, true)
  | _, _ =>
    match remote with
    | .jsonOk j => (.ok { chain with introspect := some j }, true)
    | .fail msg => (.error { message := msg, status := some 401 }, true)

/-- `_checkTokenActive(chain)`: require an access token, an introspection
result with `active === true`, and presence of the `client` key. -/
def checkTokenActive (chain : Chain) : Except Err Chain :=
  match chain.accessToken, chain.introspect with
  | some _, some i =>
    if i.active == some true && i.client then .ok chain
    else .error { message := "Error, Token not active.", status := some 401 }
  | _, _ => .error { message := "Error, Token not active.", status := some 401 }

/-- `_saveTokenToCache(chain)`: with caching enabled, push a new entry
(`cacheExpires = Date.now() + tokenCacheSeconds * 1000`) unless the result
came from the cache; the chain object is returned unchanged. -/
def saveTokenToCache (ttl now : Nat) (chain : Chain) (cache : List CacheEntry) :
    List CacheEntry :=
  if ttl > 0 then
    match chain.accessToken, chain.introspect with
    | some tok, some i =>
      if chain.introspectWasCached then cache
      else cache ++ [{ token := tok, introspect := i, cacheExpires := now + ttl * 1000 }]
    | _, _ => cache
  else cache

/-- `_addTokenScopeToReqObject(req, chain)`: ensure `req.locals` exists and,
when the introspection result has a `scope` key, store
`chain.introspect.scope || []` into `req.locals.tokenScope`. -/
def addTokenScopeToReqObject (req : Req) (chain : Chain) : Req :=
  let locals := req.locals.getD Locals.empty
  match chain.introspect with
  | some i =>
    match i.scope with
    | some sf => { req with locals := some { locals with tokenScope := some sf.orEmpty } }
    | none => { req with locals := some locals }
  | none => { req with locals := some locals }

/-- `_addUserIdToReqObject(req, chain)`: ensure `req.locals` exists and copy
a positive user number (also to the legacy `userid`) and a non-empty user
id string into `req.locals.user`. -/
def addUserIdToReqObject (req : Req) (chain : Chain) : Req :=
  let locals := req.locals.getD Locals.empty
  match chain.introspect with
  | some i =>
    match i.user with
    | some (num, uid) =>
      let locals :=
        match num with
        | some n =>
          if n > 0 then
            { locals with
                user := some { (locals.user.getD { number := none, id := none }) with
                                 number := some n }
                userid := some n }
          else locals
        | none => locals
      let locals :=
        match uid with
        | some s =>
          if jsLength s > 0 then
            { locals with
                user := some { (locals.user.getD { number := none, id := none }) with
                                 id := some s } }
          else locals
        | none => locals
      { req with locals := some locals }
    | none => { req with locals := some locals }
  | none => { req with locals := some locals }

/-- The `scopeFound` computation of `_restrictByScope`: the request's
`tokenScope` (a string is treated as a one-element array) must share at
least one element with the required-scope array. -/
def restrictScopeFound (chainScope : List String) (req : Req) : Bool :=
  match req.locals with
  | some locals =>
    match locals.tokenScope with
    | some (.str s) =>
      if chainScope.length > 0 && ([s] : List String).length > 0 then
        chainScope.any (fun scopeString => ([s] : List String).contains scopeString)
      else false
    | some (.arr reqScope) =>
      if chainScope.length > 0 && reqScope.length > 0 then
        chainScope.any (fun scopeString => reqScope.contains scopeString)
      else false
    | none => false
  | none => false

/-- `_restrictByScope(req, chain)`: with a non-empty required-scope array in
the chain options, search the request's `tokenScope` (string or array) for
any required scope and reject with 403 when none is found; without scope
restrictions, resolve. -/
def restrictByScope (req : Req) (chain : Chain) : Except Err Unit :=
  match chain.optionsScope with
  | some chainScope =>
    if chainScope.length > 0 then
      if restrictScopeFound chainScope req then .ok ()
      else .error { message := "Forbidden, token has insufficient scope", status := some 403 }
    else .ok ()
  | none => .ok ()

/-- An HTTP response as produced by `res.status(status).send(body)`; the
middleware never sets any response header, so `headers` collects whatever
headers the handler added — always none. -/
structure HttpResponse where
  status : Nat
  body : String
  headers : List (String × String)
deriving DecidableEq, Repr

/-- JS `message.split('\n')[0]`: the prefix of the message before the first
newline. -/
def firstLine (s : String) : String :=
  ⟨s.data.takeWhile (fun c => c ≠ '\n')⟩

/-- The status mapping of the `.catch` boundary handler in
`requireAccessToken`: 403 and 500 pass through, everything else becomes
401. -/
def boundaryStatus : Option Nat → Nat
  | some 403 => 403
  | some 500 => 500
  | _ => 401

/-- What a single run of the `requireAccessToken` middleware did: either
`next()` was called, or a response was sent and one diagnostic line was
logged. -/
inductive MwOutcome where
  | nextCalled
  | responded (resp : HttpResponse) (log : String)
deriving DecidableEq, Repr

/-- Result of one middleware run: the (mutated) request object, the
(mutated) module-level token cache, whether the remote introspection call
was made, and the outcome at the boundary. -/
structure MwResult where
  req : Req
  cache : List CacheEntry
  remoteCalled : Bool
  outcome : MwOutcome
deriving DecidableEq, Repr

/-- The `.catch` boundary handler of `requireAccessToken`: log
`'Token auth: ' + message`, truncate the message to its first line, map the
error status and send the response (no challenge header is ever set). -/
def boundary (req : Req) (cache : List CacheEntry) (remoteCalled : Bool) (e : Err) :
    MwResult :=
  let message := if jsLength e.message > 0 then e.message else "Token authentication error"
  { req := req
    cache := cache
    remoteCalled := remoteCalled
    outcome := .responded
      { status := boundaryStatus e.status, body := firstLine message, headers := [] }
      ("Token auth: " ++ message) }

/-- One run of the handler returned by `requireAccessToken(options)` on a
request: the promise chain
`_initChainObject → _extractTokenFromHeader → _findCachedToken →
_validateToken → _checkTokenActive → _saveTokenToCache →
_addTokenScopeToReqObject → _addUserIdToReqObject → _restrictByScope →
next()`, with every rejection routed through `boundary`.  `now` is
`Date.now()` in milliseconds and `remote` the outcome of the (at most one)
`fetch` to the authorization server. -/
def runMiddleware (cfg : Config) (options : Option JsOptions) (req : Req)
    (cache : List CacheEntry) (now : Nat) (remote : RemoteOutcome) : MwResult :=
  match initChainObject cfg options with
  | .error e => boundary req cache false e
  | .ok chain =>
    match extractTokenFromHeader req chain with
    | .error e => boundary req cache false e
    | .ok chain =>
      match validateToken (findCachedTokenStep cfg.tokenCacheSeconds now cache chain) remote with
      | (.error e, remoteCalled) => boundary req cache remoteCalled e
      | (.ok chain, remoteCalled) =>
        match checkTokenActive chain with
        | .error e => boundary req cache remoteCalled e
        | .ok chain =>
          match restrictByScope (addUserIdToReqObject (addTokenScopeToReqObject req chain) chain)
              chain with
          | .error e =>
            boundary (addUserIdToReqObject (addTokenScopeToReqObject req chain) chain)
              (saveTokenToCache cfg.tokenCacheSeconds now chain cache) remoteCalled e
          | .ok _ =>
            { req := addUserIdToReqObject (addTokenScopeToReqObject req chain) chain,
              cache := saveTokenToCache cfg.tokenCacheSeconds now chain cache,
              remoteCalled := remoteCalled,
              outcome := .nextCalled }

/-- The argument of `requireScopeForApiRoute` and `matchScope`: a string,
an array of strings, or `null`/`undefined`/another type. -/
inductive RouteScopeArg where
  | strv (s : String)
  | arrv (l : List String)
  | nullv
  | otherv
deriving DecidableEq, Repr

/-- The argument normalization shared by `requireScopeForApiRoute` and
`matchScope`: a string becomes a one-element array; `null` and non-array
non-string values are rejected. -/
def normRouteScopeArg : RouteScopeArg → Option (List String)
  | .strv s => some [s]
  | .arrv l => some l
  | .nullv => none
  | .otherv => none

/-- Outcome of one run of the middleware returned by
`requireScopeForApiRoute`: `next()` called, a 403 response sent (with one
logged line), or an error forwarded to `next(err)`. -/
inductive GateOutcome where
  | callsNext
  | responded (resp : HttpResponse) (log : String)
  | nextError (msg : String)
deriving DecidableEq, Repr

/-- The middleware function returned by
`requireScopeForApiRoute(requiredScope)` (after its synchronous argument
check), run on one request. -/
def routeScopeGate (requiredScope : List String) (req : Req) : GateOutcome :=
  match req.locals with
  | some locals =>
    match locals.tokenScope with
    | some (.arr tokenScope) =>
      if requiredScope.any (fun scopeString => tokenScope.contains scopeString) then
        .callsNext
      else
        .responded
          { status := 403, body := "Token scope: Forbidden, Access token insufficient scope",
            headers := [] }
          "Token scope: Forbidden, Access token insufficient scope"
    | _ => .nextError "Error, Tokens scope not found in request object"
  | none => .nextError "Error, Tokens scope not found in request object"

/-- The factory `requireScopeForApiRoute(requiredScope)`: throw
synchronously unless the argument is a string or an array, else return the
gate middleware for the normalized scope list. -/
def requireScopeForApiRoute (requiredScope : RouteScopeArg) :
    Except String (Req → GateOutcome) :=
  match normRouteScopeArg requiredScope with
  | some l => .ok (routeScopeGate l)
  | none => .error "requireScopeForWebPanel requires string or array"

/-- `matchScope(req, requiredScope)`: throw on a malformed argument or when
the request object carries no array-valued `tokenScope`; otherwise return
whether some required scope is among the granted scopes. -/
def matchScope (req : Req) (requiredScope : RouteScopeArg) : Except String Bool :=
  match normRouteScopeArg requiredScope with
  | none => .error "matchScope requires string or array"
  | some required =>
    match req.locals with
    | some locals =>
      match locals.tokenScope with
      | some (.arr tokenScope) =>
        .ok (required.any (fun scopeString => tokenScope.contains scopeString))
      | _ => .error "Error, Scope not found in request object"
    | none => .error "Error, Scope not found in request object"


/-! ## Helper lemmas -/

/-- The match predicate of the cache lookup, restated: constant-time token
comparison succeeds, the result is active, the token expiry (seconds since
epoch) is still in the future, and the cache-entry expiry (milliseconds) is
still in the future. -/
theorem cacheHit_eq_true_iff (e : CacheEntry) (tok : String) (now : Nat) :
    cacheHit e tok now = true ↔
      safeCompare e.token tok = true ∧ e.introspect.active = some true ∧
        (∃ ex, e.introspect.exp = some ex ∧ now / 1000 < ex) ∧ now < e.cacheExpires := by
  cases ha : e.introspect.active <;> cases hx : e.introspect.exp <;>
    simp [cacheHit, jsActiveTruthy, jsExpGt, ha, hx, Bool.and_eq_true,
      decide_eq_true_eq, and_assoc]


/-! ## Claim C4 -/

/-- Claim C4: with caching enabled (TTL > 0), the cache lookup reports a
stored entry as a match if and only if (a) the stored token equals the
looked-up token under the constant-time comparison `safeCompare`, (b) the
stored result is `active == true`, (c) the result's own `exp` (seconds) has
not passed, and (d) the entry's TTL expiry (milliseconds) has not passed;
with TTL = 0 the lookup always reports not-found. -/
theorem cache_lookup_match_conditions (ttl now : Nat) (cache : List CacheEntry)
    (tok : String) :
    (ttl = 0 → findCachedToken ttl now cache tok = none) ∧
    (0 < ttl →
      ((findCachedToken ttl now cache tok).isSome = true ↔
        ∃ e ∈ cache,
          safeCompare e.token tok = true ∧
          e.introspect.active = some true ∧
          (∃ ex, e.introspect.exp = some ex ∧ now / 1000 < ex) ∧
          now < e.cacheExpires)) := by
  constructor
  · intro h
    subst h
    simp [findCachedToken]
  · intro h
    rw [findCachedToken, if_pos h, List.find?_isSome]
    constructor
    · rintro ⟨e, he, hp⟩
      exact ⟨e, he, (cacheHit_eq_true_iff e tok now).mp hp⟩
    · rintro ⟨e, he, hp⟩
      exact ⟨e, he, (cacheHit_eq_true_iff e tok now).mpr hp⟩

/-- Concrete instantiation of `cache_lookup_match_conditions`: with TTL 0
the lookup on a one-entry cache misses; with TTL 60 the same (active,
unexpired) entry is reported. -/
theorem cache_lookup_match_conditions_witness :
    findCachedToken 0 5000
      [{ token := "a.b.c",
         introspect :=
           { active := some true, exp := some 10, scope := none,
             client := true, user := none },
         cacheExpires := 99999 }] "a.b.c" = none ∧
    (findCachedToken 60 5000
      [{ token := "a.b.c",
         introspect :=
           { active := some true, exp := some 10, scope := none,
             client := true, user := none },
         cacheExpires := 99999 }] "a.b.c").isSome = true := by
  constructor
  · exact (cache_lookup_match_conditions 0 5000 _ "a.b.c").1 rfl
  · exact ((cache_lookup_match_conditions 60 5000 _ "a.b.c").2 (by decide)).mpr
      ⟨_, List.mem_singleton_self _, by decide, rfl, ⟨10, rfl, by decide⟩, by decide⟩

/-! ## Claim C10 -/

/-- Claim C10: a cache write either leaves the cache unchanged or appends
exactly one entry at the end (so existing entries are never removed or
modified); and concretely, re-validating a token whose earlier entry has
passed its TTL expiry first misses the cache and then appends a second
entry carrying the same token string. -/
theorem cache_write_appends_only :
    (∀ ttl now chain cache, saveTokenToCache ttl now chain cache = cache ∨
      ∃ e, saveTokenToCache ttl now chain cache = cache ++ [e]) ∧
    (findCachedToken 60 2000
        [{ token := "a.b.c",
           introspect :=
             { active := some true, exp := some 9999, scope := none,
               client := true, user := none },
           cacheExpires := 1000 }] "a.b.c" = none ∧
      saveTokenToCache 60 2000
        { optionsScope := none, accessToken := some "a.b.c",
          introspect := some
            { active := some true, exp := some 9999, scope := none,
              client := true, user := none },
          introspectWasCached := false }
        [{ token := "a.b.c",
           introspect :=
             { active := some true, exp := some 9999, scope := none,
               client := true, user := none },
           cacheExpires := 1000 }] =
        [{ token := "a.b.c",
           introspect :=
             { active := some true, exp := some 9999, scope := none,
               client := true, user := none },
           cacheExpires := 1000 },
         { token := "a.b.c",
           introspect :=
             { active := some true, exp := some 9999, scope := none,
               client := true, user := none },
           cacheExpires := 62000 }]) := by
  constructor
  · intro ttl now chain cache
    unfold saveTokenToCache
    split
    · split
      · split
        · exact .inl rfl
        · exact .inr ⟨_, rfl⟩
      · exact .inl rfl
    · exact .inl rfl
  · exact ⟨by decide, by decide⟩

/-! ## Claim C1 -/

set_option maxRecDepth 4096 in
/-- Claim C1 (counterexample to the claimed 500): when the module
configuration was never initialized, a run of the `requireAccessToken`
handler on a well-formed request responds with HTTP status 401 — not 500 —
because the configuration error carries no `status` property and the
boundary handler defaults to 401. -/
theorem uninitialized_config_responds_401 :
    runMiddleware defaultConfig none
      { headers := some { authorization := some (.strV "Bearer a.b.c") }, locals := none }
      [] 0 (.fail "net") =
      { req := { headers := some { authorization := some (.strV "Bearer a.b.c") },
                 locals := none },
        cache := [], remoteCalled := false,
        outcome := .responded
          { status := 401,
            body := "Module configuration not found. Did you forget in run authInit() ?",
            headers := [] }
          "Token auth: Module configuration not found. Did you forget in run authInit() ?" } := by
  decide

set_option maxRecDepth 4096 in
/-- Claim C1 (amended): with an uninitialized configuration (any of the
three credentials unset, as after skipping `authInit`), every run fails at
the guard stage with the configuration error; the error carries no status
classification, so the boundary responds 401 with the configuration-error
message, calls no remote endpoint and leaves the cache unchanged. -/
theorem uninitialized_config_guard_failure (cfg : Config) (options : Option JsOptions)
    (req : Req) (cache : List CacheEntry) (now : Nat) (remote : RemoteOutcome)
    (h : cfg.authURL = none ∨ cfg.clientId = none ∨ cfg.clientSecret = none) :
    runMiddleware cfg options req cache now remote =
      { req := req, cache := cache, remoteCalled := false,
        outcome := .responded
          { status := 401,
            body := "Module configuration not found. Did you forget in run authInit() ?",
            headers := [] }
          "Token auth: Module configuration not found. Did you forget in run authInit() ?" } := by
  have hguard : (cfg.authURL.isNone || cfg.clientId.isNone || cfg.clientSecret.isNone) = true := by
    rcases h with h | h | h <;> simp [h]
  unfold runMiddleware initChainObject
  rw [if_pos hguard]
  show boundary req cache false _ = _
  unfold boundary
  congr 1

/-- Concrete instantiation of `uninitialized_config_guard_failure` at a
configuration missing only the client secret. -/
theorem uninitialized_config_guard_failure_witness :
    runMiddleware
      { authURL := some "http://127.0.0.1:3500", clientId := some "abc123",
        clientSecret := none, tokenCacheSeconds := 60 }
      none { headers := none, locals := none } [] 7 (.jsonOk
        { active := some true, exp := some 1, scope := none, client := true, user := none }) =
      { req := { headers := none, locals := none }, cache := [], remoteCalled := false,
        outcome := .responded
          { status := 401,
            body := "Module configuration not found. Did you forget in run authInit() ?",
            headers := [] }
          "Token auth: Module configuration not found. Did you forget in run authInit() ?" } :=
  uninitialized_config_guard_failure _ _ _ _ _ _ (Or.inr (Or.inr rfl))

/-! ## Claim C2 -/

/-- Every response produced by the `.catch` boundary handler has an empty
header list, a single-line body, and a log line prefixed with
`Token auth: ` whose first line is the body. -/
theorem boundary_response_shape (req : Req) (cache : List CacheEntry) (rc : Bool) (e : Err)
    (resp : HttpResponse) (log : String)
    (h : (boundary req cache rc e).outcome = .responded resp log) :
    resp.headers = [] ∧ resp.body.data.all (fun c => c ≠ '\n') = true ∧
      ∃ m, log = "Token auth: " ++ m ∧ resp.body = firstLine m := by
  unfold boundary at h
  simp only [MwOutcome.responded.injEq] at h
  obtain ⟨h1, h2⟩ := h
  subst h1 h2
  refine ⟨rfl, ?_, _, rfl, rfl⟩
  show (List.takeWhile _ _).all _ = true
  exact List.all_takeWhile

set_option maxRecDepth 4096 in
/-- Claim C2 (counterexample to the claimed challenge header): a concrete
401 failure (missing `Authorization` header) produces a response whose
header list is empty — no `WWW-Authenticate` or other challenge header is
ever set by the middleware. -/
theorem response_401_has_no_challenge_header :
    runMiddleware
      { authURL := some "http://127.0.0.1:3500", clientId := some "abc123",
        clientSecret := some "ssh-secret", tokenCacheSeconds := 60 }
      none { headers := some { authorization := none }, locals := none } [] 0 (.fail "net") =
      { req := { headers := some { authorization := none }, locals := none },
        cache := [], remoteCalled := false,
        outcome := .responded
          { status := 401, body := "No authorization header", headers := [] }
          "Token auth: No authorization header" } := by
  decide

/-- Claim C2 (amended): whenever a pipeline failure makes the boundary send
a response, that response carries no header at all (in particular no
challenge header); its body is the first line of the diagnostic message and
the logged line is `Token auth: ` followed by the full message. -/
theorem responses_carry_no_headers (cfg : Config) (options : Option JsOptions) (req : Req)
    (cache : List CacheEntry) (now : Nat) (remote : RemoteOutcome)
    (resp : HttpResponse) (log : String)
    (h : (runMiddleware cfg options req cache now remote).outcome = .responded resp log) :
    resp.headers = [] ∧ resp.body.data.all (fun c => c ≠ '\n') = true ∧
      ∃ m, log = "Token auth: " ++ m ∧ resp.body = firstLine m := by
  revert h
  unfold runMiddleware
  repeat' split
  all_goals intro h
  all_goals first
    | exact boundary_response_shape _ _ _ _ _ _ h
    | exact MwOutcome.noConfusion h

set_option maxRecDepth 4096 in
/-- Concrete instantiation of `responses_carry_no_headers` at a 401
response for a request without an `Authorization` header. -/
theorem responses_carry_no_headers_witness :
    (HttpResponse.mk 401 "No authorization header" []).headers = [] ∧
      (HttpResponse.mk 401 "No authorization header" []).body.data.all
        (fun c => c ≠ '\n') = true ∧
      ∃ m, "Token auth: No authorization header" = "Token auth: " ++ m ∧
        (HttpResponse.mk 401 "No authorization header" []).body = firstLine m :=
  responses_carry_no_headers
    { authURL := some "http://a", clientId := some "b", clientSecret := some "c",
      tokenCacheSeconds := 60 }
    none { headers := some { authorization := some .nonString }, locals := none }
    [] 0 (.fail "x")
    (HttpResponse.mk 401 "No authorization header" [])
    "Token auth: No authorization header" (by decide)

/-! ## Claim C3 -/

set_option maxRecDepth 8192 in
/-- Claim C3 (counterexample to the claimed unconditional attachment): a
full pipeline run that succeeds (`next()` called) on an introspection
result that has no `scope` field leaves `req.locals.tokenScope` unset —
no empty sequence is attached. -/
theorem successful_run_without_scope_field_has_no_tokenScope :
    runMiddleware
      { authURL := some "http://127.0.0.1:3500", clientId := some "abc123",
        clientSecret := some "ssh-secret", tokenCacheSeconds := 60 }
      none
      { headers := some { authorization := some (.strV "Bearer a.b.c") }, locals := none }
      [] 0
      (.jsonOk { active := some true, exp := some 99, scope := none,
                 client := true, user := none }) =
      { req := { headers := some { authorization := some (.strV "Bearer a.b.c") },
                 locals := some { tokenScope := none, user := none, userid := none } },
        cache := [{ token := "a.b.c",
                    introspect := { active := some true, exp := some 99, scope := none,
                                    client := true, user := none },
                    cacheExpires := 60000 }],
        remoteCalled := true,
        outcome := .nextCalled } := by
  decide

/-- Claim C3 (amended): the context-enrichment stage always ensures
`req.locals` exists; when the introspection result carries a `scope` field
it attaches `scope || []` (the field's value, or the empty sequence when
the field is `null` or an empty string) as `tokenScope`; when the result
carries no `scope` field, `tokenScope` is left exactly as it was — so a
successful pipeline run guarantees a `tokenScope` sequence only when the
introspection result had a `scope` field. -/
theorem enrichment_attaches_scope_only_if_field_present (req : Req) (chain : Chain) :
    ((addTokenScopeToReqObject req chain).locals.isSome = true) ∧
    (∀ i sf, chain.introspect = some i → i.scope = some sf →
      ((addTokenScopeToReqObject req chain).locals.bind (fun l => l.tokenScope)) =
        some sf.orEmpty) ∧
    ((chain.introspect.bind (fun i => i.scope)) = none →
      ((addTokenScopeToReqObject req chain).locals.bind (fun l => l.tokenScope)) =
        (req.locals.bind (fun l => l.tokenScope))) := by
  refine ⟨?_, ?_, ?_⟩
  · unfold addTokenScopeToReqObject
    cases hi : chain.introspect with
    | none => simp
    | some i => cases hs : i.scope <;> simp [hs]
  · intro i sf hi hsf
    unfold addTokenScopeToReqObject
    simp [hi, hsf]
  · intro habs
    unfold addTokenScopeToReqObject
    cases hi : chain.introspect with
    | none => cases hl : req.locals <;> simp [Locals.empty, hl]
    | some i =>
      rw [hi] at habs
      simp only [Option.some_bind] at habs
      cases hl : req.locals <;> simp [habs, Locals.empty, hl]

/-- Concrete instantiation of `enrichment_attaches_scope_only_if_field_present`:
a result with `scope: null` attaches the empty sequence, a result without a
`scope` field leaves `tokenScope` unset. -/
theorem enrichment_attaches_scope_witness :
    ((addTokenScopeToReqObject { headers := none, locals := none }
        { optionsScope := none, accessToken := some "a.b.c",
          introspect := some { active := some true, exp := some 9, scope := some .inull,
                               client := true, user := none },
          introspectWasCached := false }).locals.bind (fun l => l.tokenScope)) =
      some (TokenScope.arr []) ∧
    ((addTokenScopeToReqObject { headers := none, locals := none }
        { optionsScope := none, accessToken := some "a.b.c",
          introspect := some { active := some true, exp := some 9, scope := none,
                               client := true, user := none },
          introspectWasCached := false }).locals.bind (fun l => l.tokenScope)) = none := by
  constructor
  · exact (enrichment_attaches_scope_only_if_field_present _ _).2.1 _ .inull rfl rfl
  · exact (enrichment_attaches_scope_only_if_field_present _ _).2.2 rfl

/-! ## Claim C5 -/

/-- Claim C5 (amended): the extract stage resolves — with the second
space-separated part of the header as the token — exactly when the request
has a headers object whose `authorization` value is a string of length
below 4096 (string length, i.e. UTF-16 units, not bytes) that splits on a
single space into a scheme and a non-empty token, where the scheme
lower-cases to `bearer` (so the match is case-insensitive, not the exact
form `Bearer`) and the token has exactly three dot-separated segments.
Every violation fails with status 401, except a request without a headers
object, which fails with status 500. -/
theorem extract_stage_characterization (req : Req) (chain : Chain) :
    ((∃ c, extractTokenFromHeader req chain = .ok c) ↔
      (∃ hd s scheme tok, req.headers = some hd ∧
        hd.authorization = some (.strV s) ∧
        jsLength s < 4096 ∧
        jsSplit ' ' s = [scheme, tok] ∧
        jsToLowerCase scheme = "bearer" ∧
        0 < jsLength tok ∧
        (jsSplit '.' tok).length = 3 ∧
        extractTokenFromHeader req chain = .ok { chain with accessToken := some tok })) ∧
    (∀ e, extractTokenFromHeader req chain = .error e →
      (req.headers.isSome = true ∧ e.status = some 401) ∨
      (req.headers = none ∧ e.status = some 500)) := by
  constructor
  · constructor
    · rintro ⟨c, hc⟩
      have hc0 := hc
      unfold extractTokenFromHeader at hc
      split at hc
      · rename_i hd heqh
        split at hc
        · rename_i s heqa
          by_cases hlen : jsLength s < 4096
          · rw [if_pos hlen] at hc
            split at hc
            · rename_i hcond
              simp only [Bool.and_eq_true, decide_eq_true_eq, beq_iff_eq] at hcond
              obtain ⟨⟨⟨hlen2, hlow⟩, htokpos⟩, hseg⟩ := hcond
              rcases hsp : jsSplit ' ' s with _ | ⟨a, _ | ⟨b, _ | ⟨x, rest⟩⟩⟩ <;>
                rw [hsp] at hlen2
              · exact absurd hlen2 (by simp)
              · exact absurd hlen2 (by simp)
              · rw [hsp] at hlow htokpos hseg hc
                simp only [List.getD_cons_succ, List.getD_cons_zero] at hlow htokpos hseg hc
                injection hc with hc
                subst hc
                exact ⟨hd, s, a, b, heqh, heqa, hlen, hsp, hlow, htokpos, hseg, hc0⟩
              · exact absurd hlen2 (by simp)
            · exact Except.noConfusion hc
          · rw [if_neg hlen] at hc
            exact Except.noConfusion hc
        · exact Except.noConfusion hc
      · exact Except.noConfusion hc
    · rintro ⟨hd, s, scheme, tok, hh, ha, hlen, hsp, hlow, htokpos, hseg, hok⟩
      exact ⟨_, hok⟩
  · intro e he
    unfold extractTokenFromHeader at he
    split at he
    · rename_i hd heqh
      rw [heqh]
      left
      refine ⟨rfl, ?_⟩
      repeat' split at he
      all_goals first
        | exact Except.noConfusion he
        | (injection he with he; rw [← he])
    · rename_i heqh
      rw [heqh]
      injection he with he
      right
      exact ⟨rfl, by rw [← he]⟩

/-- Concrete instantiation of `extract_stage_characterization`: a request
whose headers object lacks the `authorization` key fails with status 401
(first disjunct of the error part). -/
theorem extract_stage_characterization_witness :
    ((some { authorization := none } : Option Headers).isSome = true ∧
      (Err.mk "No authorization header" (some 401)).status = some 401) ∨
    ((some { authorization := none } : Option Headers) = none ∧
      (Err.mk "No authorization header" (some 401)).status = some 500) :=
  (extract_stage_characterization
      { headers := some { authorization := none }, locals := none }
      { optionsScope := none, accessToken := none, introspect := none,
        introspectWasCached := false }).2
    (Err.mk "No authorization header" (some 401)) rfl

/-- Splitting a list that starts with a separator-free prefix just moves
the prefix into the accumulator. -/
theorem splitCharsAux_append_of_not_mem (sep : Char) (l rest acc : List Char) (h : sep ∉ l) :
    splitCharsAux sep (l ++ rest) acc = splitCharsAux sep rest (l.reverse ++ acc) := by
  induction l generalizing acc with
  | nil => simp
  | cons c cs ih =>
    have hc : ¬ c = sep := fun hh => h (hh ▸ List.mem_cons_self c cs)
    show splitCharsAux sep (c :: (cs ++ rest)) acc = _
    rw [splitCharsAux, if_neg hc, ih _ (fun hm => h (List.mem_cons_of_mem _ hm))]
    simp

/-- Splitting a separator-free list yields a single piece. -/
theorem splitCharsAux_of_not_mem (sep : Char) (l acc : List Char) (h : sep ∉ l) :
    splitCharsAux sep l acc = [acc.reverse ++ l] := by
  have hx := splitCharsAux_append_of_not_mem sep l [] acc h
  simp only [List.append_nil] at hx
  rw [hx]
  simp [splitCharsAux]

/-- The UTF-8 byte count of a repeated character. -/
theorem length_flatMap_replicate (n : Nat) (a : Char) (f : Char → List Nat) :
    ((List.replicate n a).flatMap f).length = n * (f a).length := by
  induction n with
  | zero => simp
  | succ n ih =>
    simp only [List.replicate_succ, List.flatMap_cons, List.length_append, ih]
    ring

/-- If the `Authorization` header value passes all four structural checks,
the extract stage resolves with the second space-separated part as token
(general form, applied below to a concrete over-long header). -/
theorem extract_resolves_of_checks (lo : Option Locals) (chain : Chain)
    (s scheme tok : String)
    (hlen : jsLength s < 4096) (hsp : jsSplit ' ' s = [scheme, tok])
    (hlow : jsToLowerCase scheme = "bearer") (hpos : 0 < jsLength tok)
    (hseg : (jsSplit '.' tok).length = 3) :
    extractTokenFromHeader
      { headers := some { authorization := some (.strV s) }, locals := lo } chain =
      .ok { chain with accessToken := some tok } := by
  show (if jsLength s < 4096 then _ else _) = _
  rw [if_pos hlen, hsp]
  simp only [List.length_cons, List.length_nil, List.getD_cons_succ, List.getD_cons_zero]
  rw [if_pos]
  simp only [Bool.and_eq_true, decide_eq_true_eq, beq_iff_eq]
  exact ⟨⟨⟨trivial, hlow⟩, hpos⟩, hseg⟩

/-- Claim C5 (counterexample): (1) a request without a headers object — so
with no `Authorization` header present — is rejected with status 500, not
401; (2) the header `bearer a.b.c`, which is not of the exact form
`Bearer <token>`, nevertheless resolves with token `a.b.c`; (3) a header of
1377 characters but 4109 UTF-8 bytes — i.e. not under the claimed maximum
of 4096 bytes — nevertheless resolves, because the code compares the
string length, not the byte length. -/
theorem extract_stage_counterexample :
    extractTokenFromHeader { headers := none, locals := none }
      { optionsScope := none, accessToken := none, introspect := none,
        introspectWasCached := false } =
      .error { message := "Headers not found in req object", status := some 500 } ∧
    extractTokenFromHeader
      { headers := some { authorization := some (.strV "bearer a.b.c") }, locals := none }
      { optionsScope := none, accessToken := none, introspect := none,
        introspectWasCached := false } =
      .ok { optionsScope := none, accessToken := some "a.b.c", introspect := none,
            introspectWasCached := false } ∧
    (4096 ≤ (strBytes ⟨"Bearer ".data ++ (List.replicate 1366 '€' ++ ".b.c".data)⟩).length ∧
      jsLength ⟨"Bearer ".data ++ (List.replicate 1366 '€' ++ ".b.c".data)⟩ < 4096 ∧
      extractTokenFromHeader
        { headers := some { authorization := some (.strV
            ⟨"Bearer ".data ++ (List.replicate 1366 '€' ++ ".b.c".data)⟩) }, locals := none }
        { optionsScope := none, accessToken := none, introspect := none,
          introspectWasCached := false } =
        .ok { optionsScope := none,
              accessToken := some ⟨List.replicate 1366 '€' ++ ".b.c".data⟩,
              introspect := none, introspectWasCached := false }) := by
  have hnospace_rep : ' ' ∉ List.replicate 1366 '€' :=
    fun hm => absurd (List.eq_of_mem_replicate hm) (by decide)
  have hnospace_t : ' ' ∉ (List.replicate 1366 '€' ++ ".b.c".data : List Char) := by
    intro hm
    rcases List.mem_append.mp hm with hm | hm
    · exact hnospace_rep hm
    · revert hm
      decide
  have hnospace_bearer : ' ' ∉ ("Bearer".data : List Char) := by decide
  have hB : ("Bearer ".data : List Char) = "Bearer".data ++ [' '] := by decide
  have hsplit : jsSplit ' '
      (⟨"Bearer ".data ++ (List.replicate 1366 '€' ++ ".b.c".data)⟩ : String) =
      ["Bearer", (⟨List.replicate 1366 '€' ++ ".b.c".data⟩ : String)] := by
    show ((splitCharsAux ' '
      ("Bearer ".data ++ (List.replicate 1366 '€' ++ ".b.c".data)) []).map _) = _
    rw [hB, List.append_assoc,
      splitCharsAux_append_of_not_mem ' ' "Bearer".data _ [] hnospace_bearer]
    show ((splitCharsAux ' '
      (' ' :: (List.replicate 1366 '€' ++ ".b.c".data)) ("Bearer".data.reverse ++ [])).map _) = _
    rw [splitCharsAux, if_pos rfl, splitCharsAux_of_not_mem ' ' _ [] hnospace_t]
    simp only [List.append_nil, List.reverse_reverse, List.reverse_nil, List.nil_append,
      List.map_cons, List.map_nil]
  have hlen : jsLength
      (⟨"Bearer ".data ++ (List.replicate 1366 '€' ++ ".b.c".data)⟩ : String) < 4096 := by
    show ("Bearer ".data ++ (List.replicate 1366 '€' ++ ".b.c".data) : List Char).length < 4096
    rw [List.length_append, List.length_append, List.length_replicate]
    decide
  have hnodot_rep : '.' ∉ List.replicate 1366 '€' :=
    fun hm => absurd (List.eq_of_mem_replicate hm) (by decide)
  have hstep : ∀ acc : List Char, splitCharsAux '.' (".b.c".data) acc =
      [acc.reverse, ['b'], ['c']] := by
    intro acc
    show splitCharsAux '.' ('.' :: 'b' :: '.' :: 'c' :: []) acc = _
    rw [splitCharsAux, if_pos rfl, splitCharsAux, if_neg (by decide), splitCharsAux,
      if_pos rfl, splitCharsAux, if_neg (by decide), splitCharsAux]
    rfl
  have hdots : (jsSplit '.'
      (⟨List.replicate 1366 '€' ++ ".b.c".data⟩ : String)).length = 3 := by
    show ((splitCharsAux '.' (List.replicate 1366 '€' ++ ".b.c".data) []).map _).length = 3
    rw [splitCharsAux_append_of_not_mem '.' _ _ [] hnodot_rep, hstep]
    rfl
  refine ⟨rfl, rfl, ?_, hlen, ?_⟩
  · show 4096 ≤ (("Bearer ".data ++ (List.replicate 1366 '€' ++ ".b.c".data)).flatMap
      (fun c => utf8Bytes c.toNat)).length
    rw [List.flatMap_append, List.flatMap_append, List.length_append, List.length_append,
      length_flatMap_replicate]
    decide
  · have hpos : 0 < jsLength (⟨List.replicate 1366 '€' ++ ".b.c".data⟩ : String) := by
      show 0 < (List.replicate 1366 '€' ++ ".b.c".data : List Char).length
      rw [List.length_append, List.length_replicate]
      decide
    exact extract_resolves_of_checks none _ _ "Bearer" _ hlen hsplit (by decide) hpos hdots

/-! ## Claim C6 -/

/-- Whether a promise in the chain resolved. -/
def exOk : Except Err Chain → Bool
  | .ok _ => true
  | .error _ => false

/-- Whether the extract stage resolves depends only on the request, not on
the chain object it is handed. -/
theorem extract_isOk_congr (req : Req) (c c' : Chain) :
    exOk (extractTokenFromHeader req c) = exOk (extractTokenFromHeader req c') := by
  obtain ⟨hs, lo⟩ := req
  cases hs with
  | none => rfl
  | some hd =>
    obtain ⟨av⟩ := hd
    cases av with
    | none => rfl
    | some hv =>
      cases hv with
      | nonString => rfl
      | strV s =>
        show exOk (if jsLength s < 4096 then _ else _) =
          exOk (if jsLength s < 4096 then _ else _)
        split_ifs <;> rfl

/-- With caching disabled the cache-lookup step always clears the
introspection slot (no hit is ever reported). -/
theorem findCachedTokenStep_ttl_zero (now : Nat) (cache : List CacheEntry) (c : Chain) :
    (findCachedTokenStep 0 now cache c).introspect = none := by
  obtain ⟨os, tk, it, wc⟩ := c
  cases tk <;> simp [findCachedTokenStep, findCachedToken]

/-- When the chain carries no introspection result, the validate stage
always performs the remote call. -/
theorem validateToken_remote_of_introspect_none (c : Chain) (remote : RemoteOutcome)
    (h : c.introspect = none) : (validateToken c remote).2 = true := by
  obtain ⟨os, tk, it, wc⟩ := c
  cases it with
  | some i => simp at h
  | none => cases tk <;> cases remote <;> rfl

/-- Claim C6: with an initialized configuration and `tokenCacheSeconds = 0`,
no run ever modifies the token cache (nothing is ever appended), and every
run whose extract stage resolves performs the remote introspection call
(the cache never reports a hit). -/
theorem ttl_zero_never_caches_always_remote (cfg : Config) (options : Option JsOptions)
    (req : Req) (cache : List CacheEntry) (now : Nat) (remote : RemoteOutcome)
    (hinit : cfg.authURL.isSome = true ∧ cfg.clientId.isSome = true ∧
      cfg.clientSecret.isSome = true)
    (h0 : cfg.tokenCacheSeconds = 0) :
    (runMiddleware cfg options req cache now remote).cache = cache ∧
    ((∃ c c', extractTokenFromHeader req c = .ok c') →
      (runMiddleware cfg options req cache now remote).remoteCalled = true) := by
  obtain ⟨hA, hB, hC⟩ := hinit
  constructor
  · unfold runMiddleware
    rw [h0]
    repeat' split
    all_goals rfl
  · rintro ⟨c, c', hok⟩
    unfold runMiddleware
    rw [h0]
    split
    · rename_i e heq
      unfold initChainObject at heq
      have hguard : (cfg.authURL.isNone || cfg.clientId.isNone ||
          cfg.clientSecret.isNone) = false := by
        cases hu : cfg.authURL <;> cases hi : cfg.clientId <;>
          cases hs : cfg.clientSecret <;> simp_all
      rw [hguard] at heq
      simp at heq
    · rename_i chain0 heq0
      split
      · rename_i e heqE
        have hcongr := extract_isOk_congr req chain0 c
        rw [heqE, hok] at hcongr
        simp [exOk] at hcongr
      · rename_i c1 heqE
        have h2 := validateToken_remote_of_introspect_none
          (findCachedTokenStep 0 now cache c1) remote
          (findCachedTokenStep_ttl_zero now cache c1)
        split
        · rename_i e rc heqV
          rw [heqV] at h2
          exact h2
        · rename_i c2 rc heqV
          rw [heqV] at h2
          repeat' split
          all_goals exact h2

/-- Concrete instantiation of `ttl_zero_never_caches_always_remote`: with
TTL 0 a valid bearer request leaves the cache empty and calls the remote
introspection endpoint. -/
theorem ttl_zero_never_caches_always_remote_witness :
    (runMiddleware
      { authURL := some "http://a", clientId := some "b", clientSecret := some "c",
        tokenCacheSeconds := 0 }
      none { headers := some { authorization := some (.strV "Bearer a.b.c") }, locals := none }
      [] 0 (.fail "down")).cache = [] ∧
    (runMiddleware
      { authURL := some "http://a", clientId := some "b", clientSecret := some "c",
        tokenCacheSeconds := 0 }
      none { headers := some { authorization := some (.strV "Bearer a.b.c") }, locals := none }
      [] 0 (.fail "down")).remoteCalled = true := by
  constructor
  · exact (ttl_zero_never_caches_always_remote
      { authURL := some "http://a", clientId := some "b", clientSecret := some "c",
        tokenCacheSeconds := 0 }
      none { headers := some { authorization := some (.strV "Bearer a.b.c") }, locals := none }
      [] 0 (.fail "down") ⟨rfl, rfl, rfl⟩ rfl).1
  · exact (ttl_zero_never_caches_always_remote
      { authURL := some "http://a", clientId := some "b", clientSecret := some "c",
        tokenCacheSeconds := 0 }
      none { headers := some { authorization := some (.strV "Bearer a.b.c") }, locals := none }
      [] 0 (.fail "down") ⟨rfl, rfl, rfl⟩ rfl).2
      ⟨{ optionsScope := none, accessToken := none, introspect := none,
         introspectWasCached := false },
       { optionsScope := none, accessToken := some "a.b.c", introspect := none,
         introspectWasCached := false }, rfl⟩

/-! ## Claim C7 -/

/-- The granted scopes of a request context, as the scope-enforcement stage
reads them: the `tokenScope` array, a string as a one-element sequence,
nothing when `req.locals` or `tokenScope` is absent. -/
def grantedScopes (req : Req) : List String :=
  match req.locals with
  | some locals =>
    match locals.tokenScope with
    | some (.str s) => [s]
    | some (.arr l) => l
    | none => []
  | none => []

/-- The `scopeFound` flag is set exactly when some required scope is among
the granted scopes. -/
theorem restrictScopeFound_iff (l : List String) (req : Req) :
    restrictScopeFound l req = true ↔ ∃ s ∈ l, s ∈ grantedScopes req := by
  obtain ⟨hs, lo⟩ := req
  cases lo with
  | none => simp [restrictScopeFound, grantedScopes]
  | some locals =>
    obtain ⟨ts, u, uid⟩ := locals
    cases ts with
    | none => simp [restrictScopeFound, grantedScopes]
    | some t =>
      cases t with
      | str s =>
        simp only [restrictScopeFound, grantedScopes]
        split_ifs with h
        · simp [List.any_eq_true, List.contains_iff_exists_mem_beq, beq_iff_eq]
        · simp only [Bool.and_eq_true, decide_eq_true_eq] at h
          constructor
          · intro hcontra
            exact absurd hcontra (by simp)
          · rintro ⟨s', hs', hmem⟩
            exact absurd ⟨List.length_pos.mpr (by rintro rfl; cases hs'), by simp⟩ h
      | arr g =>
        simp only [restrictScopeFound, grantedScopes]
        split_ifs with h
        · simp [List.any_eq_true, List.contains_iff_exists_mem_beq, beq_iff_eq]
        · simp only [Bool.and_eq_true, decide_eq_true_eq] at h
          constructor
          · intro hcontra
            exact absurd hcontra (by simp)
          · rintro ⟨s', hs', hmem⟩
            exact absurd
              ⟨List.length_pos.mpr (by rintro rfl; cases hs'),
               List.length_pos.mpr (by rintro rfl; cases hmem)⟩ h

/-- Claim C7: with no scope option or an (effectively) empty required-scope
set, the scope-enforcement stage always resolves; with a non-empty
required-scope set it resolves exactly when some granted scope is in the
set, and otherwise rejects with the 403 insufficient-scope error. -/
theorem scope_enforcement_characterization (req : Req) (chain : Chain) :
    (chain.optionsScope = none → restrictByScope req chain = .ok ()) ∧
    (chain.optionsScope = some [] → restrictByScope req chain = .ok ()) ∧
    (∀ l, chain.optionsScope = some l → l ≠ [] →
      ((restrictByScope req chain = .ok () ↔ ∃ s ∈ l, s ∈ grantedScopes req) ∧
       (restrictByScope req chain = .ok () ∨
         restrictByScope req chain =
           .error { message := "Forbidden, token has insufficient scope",
                    status := some 403 }))) := by
  obtain ⟨os, tk, it, wc⟩ := chain
  refine ⟨?_, ?_, ?_⟩
  · intro h
    have h' : os = none := h
    subst h'
    rfl
  · intro h
    have h' : os = some [] := h
    subst h'
    rfl
  · intro l hl hne
    have h' : os = some l := hl
    subst h'
    have hlpos : 0 < l.length := List.length_pos.mpr hne
    have hred : restrictByScope req ⟨some l, tk, it, wc⟩ =
        (if restrictScopeFound l req then Except.ok () else
          Except.error { message := "Forbidden, token has insufficient scope",
                         status := some 403 }) := by
      show (if l.length > 0 then _ else _) = _
      rw [if_pos hlpos]
    by_cases hz : restrictScopeFound l req = true
    · rw [hred, if_pos hz]
      exact ⟨⟨fun _ => (restrictScopeFound_iff l req).mp hz, fun _ => rfl⟩, Or.inl rfl⟩
    · rw [hred, if_neg hz]
      refine ⟨⟨fun hcontra => Except.noConfusion hcontra, fun hex => ?_⟩, Or.inr rfl⟩
      exact absurd ((restrictScopeFound_iff l req).mpr hex) hz

/-- Concrete instantiation of `scope_enforcement_characterization` on the
spec's example: granted `["api.read"]` is rejected with 403 against
required `["api.write"]` and accepted against `["api.read", "api.write"]`. -/
theorem scope_enforcement_witness :
    restrictByScope
      { headers := none,
        locals := some { tokenScope := some (.arr ["api.read"]), user := none,
                         userid := none } }
      { optionsScope := some ["api.write"], accessToken := some "a.b.c",
        introspect := none, introspectWasCached := false } =
      .error { message := "Forbidden, token has insufficient scope", status := some 403 } ∧
    restrictByScope
      { headers := none,
        locals := some { tokenScope := some (.arr ["api.read"]), user := none,
                         userid := none } }
      { optionsScope := some ["api.read", "api.write"], accessToken := some "a.b.c",
        introspect := none, introspectWasCached := false } =
      .ok () := by
  constructor
  · have h := ((scope_enforcement_characterization
      { headers := none,
        locals := some { tokenScope := some (.arr ["api.read"]), user := none,
                         userid := none } }
      { optionsScope := some ["api.write"], accessToken := some "a.b.c",
        introspect := none, introspectWasCached := false }).2.2
      ["api.write"] rfl (by decide))
    refine h.2.resolve_left (fun hok => ?_)
    have hex := h.1.mp hok
    revert hex
    decide
  · exact ((scope_enforcement_characterization
      { headers := none,
        locals := some { tokenScope := some (.arr ["api.read"]), user := none,
                         userid := none } }
      { optionsScope := some ["api.read", "api.write"], accessToken := some "a.b.c",
        introspect := none, introspectWasCached := false }).2.2
      ["api.read", "api.write"] rfl (by decide)).1.mpr ⟨"api.read", by decide, by decide⟩

/-! ## Claim C8 -/

/-- Claim C8 (counterexample to failing closed with 403): when the request
context carries no scope data, the gate middleware does not send a 403
response — it forwards a setup error to the `next(err)` continuation. -/
theorem route_gate_missing_context_counterexample :
    routeScopeGate ["api.read"] { headers := none, locals := none } =
      .nextError "Error, Tokens scope not found in request object" := by
  rfl

/-- Claim C8 (amended): the gate middleware of `requireScopeForApiRoute`
calls `next()` when some required scope is among the context's array-valued
granted scopes, and responds 403 when the array is present but no scope
matches; when the context has no array-valued scope data it instead passes
the `Tokens scope not found` error to the `next(err)` continuation (the
framework's error handler), sending no 403 itself. -/
theorem route_gate_characterization (requiredScope : List String) (req : Req) :
    (∀ g, (req.locals.bind (fun l => l.tokenScope)) = some (.arr g) →
      ((routeScopeGate requiredScope req = .callsNext ↔ ∃ s ∈ requiredScope, s ∈ g) ∧
       (routeScopeGate requiredScope req = .callsNext ∨
         routeScopeGate requiredScope req =
           .responded
             { status := 403,
               body := "Token scope: Forbidden, Access token insufficient scope",
               headers := [] }
             "Token scope: Forbidden, Access token insufficient scope"))) ∧
    ((∀ g, (req.locals.bind (fun l => l.tokenScope)) ≠ some (.arr g)) →
      routeScopeGate requiredScope req =
        .nextError "Error, Tokens scope not found in request object") := by
  obtain ⟨hs, lo⟩ := req
  cases lo with
  | none =>
    refine ⟨fun g h => ?_, fun _ => rfl⟩
    exact Option.noConfusion h
  | some locals =>
    obtain ⟨ts, u, uid⟩ := locals
    cases ts with
    | none =>
      refine ⟨fun g h => ?_, fun _ => rfl⟩
      simp at h
    | some t =>
      cases t with
      | str s =>
        refine ⟨fun g h => ?_, fun _ => rfl⟩
        simp at h
      | arr g0 =>
        constructor
        · intro g h
          simp only [Option.some_bind, Option.some.injEq, TokenScope.arr.injEq] at h
          subst h
          have hred : routeScopeGate requiredScope
              { headers := hs,
                locals := some { tokenScope := some (.arr g0), user := u, userid := uid } } =
              (if requiredScope.any (fun s => g0.contains s) then GateOutcome.callsNext
               else .responded
                 { status := 403,
                   body := "Token scope: Forbidden, Access token insufficient scope",
                   headers := [] }
                 "Token scope: Forbidden, Access token insufficient scope") := rfl
          rw [hred]
          by_cases hany : requiredScope.any (fun s => g0.contains s) = true
          · rw [if_pos hany]
            refine ⟨⟨fun _ => ?_, fun _ => rfl⟩, Or.inl rfl⟩
            simpa [List.any_eq_true, List.contains_iff_exists_mem_beq, beq_iff_eq]
              using hany
          · rw [if_neg hany]
            refine ⟨⟨fun hc => GateOutcome.noConfusion hc, fun hex => ?_⟩, Or.inr rfl⟩
            refine absurd ?_ hany
            simpa [List.any_eq_true, List.contains_iff_exists_mem_beq, beq_iff_eq]
              using hex
        · intro hnone
          exact absurd rfl (hnone g0)

/-- Concrete instantiation of `route_gate_characterization`: a gate for
`api.write` responds 403 on a context granting only `api.read`, and a gate
over a context without `req.locals` forwards the setup error. -/
theorem route_gate_characterization_witness :
    routeScopeGate ["api.write"]
      { headers := none,
        locals := some { tokenScope := some (.arr ["api.read"]), user := none,
                         userid := none } } =
      .responded
        { status := 403, body := "Token scope: Forbidden, Access token insufficient scope",
          headers := [] }
        "Token scope: Forbidden, Access token insufficient scope" ∧
    routeScopeGate ["api.write"] { headers := some { authorization := none }, locals := none } =
      .nextError "Error, Tokens scope not found in request object" := by
  constructor
  · have h := (route_gate_characterization ["api.write"]
      { headers := none,
        locals := some { tokenScope := some (.arr ["api.read"]), user := none,
                         userid := none } }).1 ["api.read"] rfl
    refine h.2.resolve_left (fun hok => ?_)
    have hex := h.1.mp hok
    revert hex
    decide
  · exact (route_gate_characterization ["api.write"]
      { headers := some { authorization := none }, locals := none }).2
      (fun g h => Option.noConfusion h)

/-! ## Claim C9 -/

/-- Claim C9: `matchScope` returns a boolean exactly when its required-scope
argument is a string or an array and the request context carries
array-valued granted scopes (it throws in every other case); the returned
value is `true` exactly when the normalized required scopes intersect the
granted scopes. -/
theorem matchScope_characterization (req : Req) (arg : RouteScopeArg) :
    ((∃ b, matchScope req arg = .ok b) ↔
      (((∃ s, arg = .strv s) ∨ (∃ l, arg = .arrv l)) ∧
        ∃ g, (req.locals.bind (fun l => l.tokenScope)) = some (.arr g))) ∧
    (∀ required g, normRouteScopeArg arg = some required →
      (req.locals.bind (fun l => l.tokenScope)) = some (.arr g) →
      (matchScope req arg = .ok true ↔ ∃ s ∈ required, s ∈ g)) := by
  obtain ⟨hs, lo⟩ := req
  constructor
  · cases arg with
    | nullv => simp [matchScope, normRouteScopeArg]
    | otherv => simp [matchScope, normRouteScopeArg]
    | strv s =>
      cases lo with
      | none => simp [matchScope, normRouteScopeArg]
      | some locals =>
        obtain ⟨ts, u, uid⟩ := locals
        cases ts with
        | none => simp [matchScope, normRouteScopeArg]
        | some t =>
          cases t with
          | str s' => simp [matchScope, normRouteScopeArg]
          | arr g => simp [matchScope, normRouteScopeArg]
    | arrv l =>
      cases lo with
      | none => simp [matchScope, normRouteScopeArg]
      | some locals =>
        obtain ⟨ts, u, uid⟩ := locals
        cases ts with
        | none => simp [matchScope, normRouteScopeArg]
        | some t =>
          cases t with
          | str s' => simp [matchScope, normRouteScopeArg]
          | arr g => simp [matchScope, normRouteScopeArg]
  · intro required g hnorm hbind
    cases arg with
    | nullv => exact Option.noConfusion hnorm
    | otherv => exact Option.noConfusion hnorm
    | strv s =>
      simp only [normRouteScopeArg, Option.some.injEq] at hnorm
      subst hnorm
      cases lo with
      | none => exact Option.noConfusion hbind
      | some locals =>
        obtain ⟨ts, u, uid⟩ := locals
        simp only [Option.some_bind] at hbind
        have hts : ts = some (.arr g) := hbind
        subst hts
        show Except.ok ([s].any (fun x => g.contains x)) = .ok true ↔ _
        simp [List.any_eq_true, List.contains_iff_exists_mem_beq, beq_iff_eq,
          Except.ok.injEq]
    | arrv l =>
      simp only [normRouteScopeArg, Option.some.injEq] at hnorm
      subst hnorm
      cases lo with
      | none => exact Option.noConfusion hbind
      | some locals =>
        obtain ⟨ts, u, uid⟩ := locals
        simp only [Option.some_bind] at hbind
        have hts : ts = some (.arr g) := hbind
        subst hts
        show Except.ok (l.any (fun x => g.contains x)) = .ok true ↔ _
        simp [List.any_eq_true, List.contains_iff_exists_mem_beq, beq_iff_eq,
          Except.ok.injEq]

/-- Concrete instantiation of `matchScope_characterization` on the spec's
example: `matchScope(req, 'api.admin')` returns `false` when the granted
scopes are `["api.read"]`, and throws when the gate middleware never
populated scope data. -/
theorem matchScope_characterization_witness :
    matchScope
      { headers := none,
        locals := some { tokenScope := some (.arr ["api.read"]), user := none,
                         userid := none } }
      (.strv "api.admin") = .ok false ∧
    ¬ ∃ b, matchScope { headers := none, locals := none } (.strv "api.admin") = .ok b := by
  constructor
  · have h := matchScope_characterization
      { headers := none,
        locals := some { tokenScope := some (.arr ["api.read"]), user := none,
                         userid := none } }
      (.strv "api.admin")
    obtain ⟨b, hb⟩ := h.1.mpr ⟨Or.inl ⟨"api.admin", rfl⟩, ["api.read"], rfl⟩
    cases b with
    | false => exact hb
    | true =>
      exact absurd ((h.2 ["api.admin"] ["api.read"] rfl rfl).mp hb) (by decide)
  · intro ⟨b, hb⟩
    have h := (matchScope_characterization
      { headers := none, locals := none } (.strv "api.admin")).1.mp ⟨b, hb⟩
    obtain ⟨g, hg⟩ := h.2
    exact Option.noConfusion hg

end TokenAuth
